import Mathlib

set_option maxHeartbeats 1000000

/- Shallow embedding of the baeunjs library (src/baeunjs.js).
   The library has three components: a DOM element builder (elem), a
   localStorage-backed state manager (stateManager) and a hash router
   (hashRouter). Each JavaScript function is translated into a pure Lean
   function; DOM and localStorage mutation becomes explicit state passing,
   callback invocation becomes an explicit list of (callback id, argument)
   events, and thrown exceptions become Except values. -/

/-- JSError enumerates the failure modes of the embedded operations:
the invalid tagName error of elem, the invalid children error of
appendChildren, the TypeError of calling a missing route function or of
Object.keys on null, and the unsupported type error of stateManager.set. -/
inductive JSError where
  | tagNameError
  | childrenError
  | typeError
  | unsupportedType
deriving DecidableEq, Repr

/-- JSValue models the JavaScript values handled by the state manager and by
the option maps of the element builder. Numbers are modelled as integers
(none of the claims involve non-integral or non-finite numbers). Functions
are modelled opaquely by an identifier; objects are association lists in
insertion order. -/
inductive JSValue where
  | vstr (s : String)
  | vnum (n : Int)
  | vbool (b : Bool)
  | vnull
  | vundef
  | vfunc (id : Nat)
  | vobj (fields : List (String × JSValue))
deriving Repr

mutual
/-- jsonRound models the effect of JSON.stringify followed by JSON.parse on
a value placed inside the stored envelope: undefined and function members
are dropped, every other supported member survives unchanged. Returns none
when the value itself would be discarded by JSON.stringify. -/
def jsonRound : JSValue → Option JSValue
  | .vstr s => some (.vstr s)
  | .vnum n => some (.vnum n)
  | .vbool b => some (.vbool b)
  | .vnull => some .vnull
  | .vundef => none
  | .vfunc _ => none
  | .vobj fs => some (.vobj (jsonRoundFields fs))

/-- jsonRoundFields maps jsonRound over the fields of an object, dropping
the fields whose values JSON.stringify discards. -/
def jsonRoundFields : List (String × JSValue) → List (String × JSValue)
  | [] => []
  | (k, v) :: rest =>
    match jsonRound v with
    | some w => (k, w) :: jsonRoundFields rest
    | none => jsonRoundFields rest
end

/-- Stored models one serialized string kept in localStorage by the state
manager: either the literal string null (the sentinel written for a null
value), or the JSON envelope produced by JSON.stringify on a record with a
type tag and a value. The envelope string always starts with a brace, so
the two string representations never collide, which this inductive keeps as
constructor disjointness. -/
inductive Stored where
  | nullLit
  | envelope (tag : String) (value : JSValue)
deriving Repr

/-- jsLookup models property lookup in a plain object represented as an
association list: the first matching key wins (JavaScript objects have
unique keys). -/
def jsLookup {α : Type} : List (String × α) → String → Option α
  | [], _ => none
  | (k, v) :: rest, key => if k = key then some v else jsLookup rest key

/-- assocSet models the assignment obj[key] = v on an object kept as an
association list: replace the existing entry in place or append a new one
at the end, preserving insertion order. -/
def assocSet {α : Type} : List (String × α) → String → α → List (String × α)
  | [], key, v => [(key, v)]
  | (k, w) :: rest, key, v =>
    if k = key then (key, v) :: rest else (k, w) :: assocSet rest key v

/-- Store is the state of the state manager: the localStorage backend and
the callback registry (key to list of callback identifiers, in registration
order). -/
structure Store where
  storage : List (String × Stored)
  callbacks : List (String × List Nat)
deriving Repr

/-- triggerCallbacks models stateManager._triggerCallbacks: every callback
registered for the key is invoked with the value; the result lists the
invocations (callback identifier, argument) in order. A key absent from the
registry fires nothing. -/
def triggerCallbacks (callbacks : List (String × List Nat)) (key : String)
    (value : JSValue) : List (Nat × JSValue) :=
  match jsLookup callbacks key with
  | some cbs => cbs.map (fun cb => (cb, value))
  | none => []

/-- serializeValue models the type dispatch inside stateManager.set: null
becomes the literal sentinel; a string or a number is stored in an envelope
tagged with its typeof; a plain object is stored in an object envelope
whose value went through the JSON round trip; any other kind throws the
unsupported type error. -/
def serializeValue : JSValue → Except JSError Stored
  | .vnull => .ok .nullLit
  | .vstr s => .ok (.envelope "string" (.vstr s))
  | .vnum n => .ok (.envelope "number" (.vnum n))
  | .vobj fs => .ok (.envelope "object" (.vobj (jsonRoundFields fs)))
  | _ => .error .unsupportedType

/-- setTry models the try block of stateManager.set: serialize the value,
write it to the backend under the key, then fire the callbacks registered
for that key with the new (unserialized) value. -/
def stateManager.setTry (st : Store) (key : String) (value : JSValue) :
    Except JSError (Store × List (Nat × JSValue)) :=
  match serializeValue value with
  | .error e => .error e
  | .ok sv =>
    .ok ({ st with storage := assocSet st.storage key sv },
         triggerCallbacks st.callbacks key value)

/-- set models stateManager.set including its catch clause: on an
unsupported value the thrown error is caught and logged, the store is left
unchanged and no callback fires. Totality of this function is the
embedding of the fact that set never raises to its caller. -/
def stateManager.set (st : Store) (key : String) (value : JSValue) :
    Store × List (Nat × JSValue) :=
  match stateManager.setTry st key value with
  | .ok r => r
  | .error _ => (st, [])

/-- jsToNumber models the Number(x) coercion for the values that can occur
in a stored envelope. Number on a number is the identity, the only case
reachable through stateManager.set; the other cases follow the JavaScript
coercion where it is exact (a numeric string parses, the empty string is
zero) and collapse the NaN results to null, which no claim observes. -/
def jsToNumber : JSValue → JSValue
  | .vnum n => .vnum n
  | .vnull => .vnum 0
  | .vbool b => .vnum (if b then 1 else 0)
  | .vstr s =>
    if s = "" then .vnum 0
    else
      match s.toInt? with
      | some n => .vnum n
      | none => .vnull
  | _ => .vnull

/-- get models stateManager.get: a missing key or the null sentinel yields
null; an envelope restores its value according to the type tag, applying
the Number coercion for the number tag; an unknown tag yields null. -/
def stateManager.get (st : Store) (key : String) : JSValue :=
  match jsLookup st.storage key with
  | none => .vnull
  | some .nullLit => .vnull
  | some (.envelope tag v) =>
    if tag = "string" then v
    else if tag = "number" then jsToNumber v
    else if tag = "object" then v
    else .vnull

/-- clear models stateManager.clear: the backend is emptied, then for every
key present in the callback registry (in registry order) the callbacks of
that key are fired with null. -/
def stateManager.clear (st : Store) : Store × List (Nat × JSValue) :=
  ({ st with storage := [] },
   ((st.callbacks.map Prod.fst).map
     (fun k => triggerCallbacks st.callbacks k .vnull)).flatten)

/-- supportedValue captures the value kinds accepted by stateManager.set,
with plain objects restricted to JSON-stable members: a nested function or
undefined member would be silently dropped by JSON.stringify, so a plain
object here is one that the JSON round trip maps to itself. -/
def supportedValue : JSValue → Prop
  | .vnull => True
  | .vstr _ => True
  | .vnum _ => True
  | .vobj fs => jsonRoundFields fs = fs
  | _ => False

/-- unsupportedKind decides the value kinds rejected by the type dispatch
of stateManager.set: booleans, functions and undefined. -/
def unsupportedKind : JSValue → Bool
  | .vbool _ => true
  | .vfunc _ => true
  | .vundef => true
  | _ => false

/-- DomNode models a DOM node: either a text node, or an element carrying
its tag, className, directly assigned properties, attributes, registered
event listeners (event name and handler identifier, in registration order)
and child nodes. -/
inductive DomNode where
  | text (s : String)
  | element (tag : String) (className : String)
      (props : List (String × JSValue)) (attrs : List (String × String))
      (listeners : List (String × Nat)) (children : List DomNode)
deriving Repr

/-- isHTMLElement models the instanceof HTMLElement test: element nodes
pass, text nodes do not. -/
def isHTMLElement : DomNode → Bool
  | .element .. => true
  | .text _ => false

/-- ElementAttrs is the attribute state of an element under construction,
before its children are attached: the fields mutated by
setAttributesAndEvents. -/
structure ElementAttrs where
  className : String := ""
  props : List (String × JSValue) := []
  attrs : List (String × String) := []
  listeners : List (String × Nat) := []
deriving Repr

/-- JSArg models a JavaScript value passed as the options or the children
argument of elem. -/
inductive JSArg where
  | str (s : String)
  | num (n : Int)
  | node (d : DomNode)
  | arr (xs : List JSArg)
  | obj (fields : List (String × JSValue))
  | nullv
  | undef
  | boolv (b : Bool)
  | func (id : Nat)
deriving Repr

/-- jsWhitespace decides the character set stripped by
String.prototype.trim, the ECMAScript WhiteSpace and LineTerminator
productions: tab, line feed, vertical tab, form feed, carriage return,
space, no-break space, the zero width no-break space U+FEFF, the Unicode
space separators (category Zs: U+1680, U+2000 to U+200A, U+202F, U+205F,
U+3000) and the line and paragraph separators U+2028 and U+2029. -/
def jsWhitespace (c : Char) : Bool :=
  let n := c.toNat
  n == 0x9 || n == 0xA || n == 0xB || n == 0xC || n == 0xD ||
  n == 0x20 || n == 0xA0 || n == 0x1680 ||
  (decide (0x2000 ≤ n) && decide (n ≤ 0x200A)) ||
  n == 0x2028 || n == 0x2029 || n == 0x202F || n == 0x205F ||
  n == 0x3000 || n == 0xFEFF

/-- jsTrim models String.prototype.trim on the character list of the
string: the JavaScript whitespace characters are removed from both
ends. -/
def jsTrim (s : String) : String :=
  ⟨((s.data.dropWhile jsWhitespace).reverse.dropWhile
      jsWhitespace).reverse⟩

/-- jsStartsWith models String.prototype.startsWith on character lists. -/
def jsStartsWith (s p : String) : Bool := p.data.isPrefixOf s.data

/-- jsToLower models String.prototype.toLowerCase on character lists
(ASCII case mapping, which covers every DOM event name). -/
def jsToLower (s : String) : String := ⟨s.data.map Char.toLower⟩

/-- isChildren models the isChildren helper: true for a string, a number,
an array, or an HTMLElement instance. -/
def isChildren : JSArg → Bool
  | .str _ => true
  | .num _ => true
  | .arr _ => true
  | .node d => isHTMLElement d
  | _ => false

/-- jsString models the String(x) coercion used for class names, attribute
values and text nodes. For an integer the result matches the JavaScript
decimal rendering; functions and objects are rendered opaquely. -/
def jsString : JSValue → String
  | .vstr s => s
  | .vnum n => toString n
  | .vbool b => if b then "true" else "false"
  | .vnull => "null"
  | .vundef => "undefined"
  | .vfunc _ => "function"
  | .vobj _ => "[object Object]"

/-- JSValue.isFunction models the typeof value === function test. -/
def JSValue.isFunction : JSValue → Bool
  | .vfunc _ => true
  | _ => false

/-- JSValue.funcId extracts the opaque identifier of a function value. -/
def JSValue.funcId : JSValue → Nat
  | .vfunc i => i
  | _ => 0

/-- applyOption models one iteration of the Object.keys loop in
setAttributesAndEvents: a function value under an on-prefixed key is
registered as a listener for the rest of the key lower-cased; otherwise the
class key sets className; otherwise a key that exists as a property on the
node (decided by the host-dependent predicate hasProp, modelling the
JavaScript key in element test) is assigned directly; otherwise the key is
set as a generic string attribute. -/
def applyOption (hasProp : String → Bool) (el : ElementAttrs) (key : String)
    (value : JSValue) : ElementAttrs :=
  if value.isFunction && jsStartsWith key "on" then
    { el with listeners := el.listeners ++ [(jsToLower (key.drop 2), value.funcId)] }
  else if key = "class" then
    { el with className := jsString value }
  else if hasProp key then
    { el with props := assocSet el.props key value }
  else
    { el with attrs := assocSet el.attrs key (jsString value) }

/-- setAttributesAndEvents models the whole Object.keys forEach loop:
applyOption applied to each entry of the option map in insertion order. -/
def setAttributesAndEvents (hasProp : String → Bool) (el : ElementAttrs)
    (m : List (String × JSValue)) : ElementAttrs :=
  m.foldl (fun e kv => applyOption hasProp e kv.1 kv.2) el

mutual
/-- appendChildren models the appendChildren helper, with the accumulated
child list of the parent passed explicitly: an array recurses over its
elements in order, an HTMLElement is appended as is, a string or a number
is appended as a text node of its string form, and anything else throws
the invalid children error. -/
def appendChildren (acc : List DomNode) (c : JSArg) :
    Except JSError (List DomNode) :=
  match c with
  | .arr xs => appendChildrenList acc xs
  | .node d =>
    if isHTMLElement d then .ok (acc ++ [d]) else .error .childrenError
  | .str s => .ok (acc ++ [.text s])
  | .num n => .ok (acc ++ [.text (toString n)])
  | _ => .error .childrenError

/-- appendChildrenList models children.forEach over an array: recurse on
each element left to right, propagating the first thrown error. -/
def appendChildrenList (acc : List DomNode) (cs : List JSArg) :
    Except JSError (List DomNode) :=
  match cs with
  | [] => .ok acc
  | c :: rest =>
    match appendChildren acc c with
    | .ok acc2 => appendChildrenList acc2 rest
    | .error e => .error e
end

mutual
/-- childrenFlatten is the specification-side description of children
application, written from the spec sentence: a children value denotes the
list of nodes obtained by depth-first flattening, where text and numbers
denote text nodes and an element node denotes itself; none marks an invalid
children value. -/
def childrenFlatten (c : JSArg) : Option (List DomNode) :=
  match c with
  | .arr xs => childrenFlattenList xs
  | .node d => if isHTMLElement d then some [d] else none
  | .str s => some [.text s]
  | .num n => some [.text (toString n)]
  | _ => none

/-- childrenFlattenList flattens a sequence of children values in order,
failing when any element is invalid. -/
def childrenFlattenList (cs : List JSArg) : Option (List DomNode) :=
  match cs with
  | [] => some []
  | c :: rest =>
    match childrenFlatten c, childrenFlattenList rest with
    | some ds, some es => some (ds ++ es)
    | _, _ => none
end

/-- jsObjectKeys models Object.keys(options) together with reading each
key: a plain object yields its own entries in insertion order; null and
undefined make Object.keys throw a TypeError; booleans, functions and
numbers box to objects with no own enumerable keys. Strings and arrays
would expose index keys, but elem never reaches this point with them
(isChildren diverts them to the children argument first), so they are
modelled as having no entries. -/
def jsObjectKeys : JSArg → Except JSError (List (String × JSValue))
  | .obj m => .ok m
  | .nullv => .error .typeError
  | .undef => .error .typeError
  | _ => .ok []

/-- mkElement assembles the finished element node from its tag, attribute
state and children. -/
def mkElement (tag : String) (ea : ElementAttrs) (children : List DomNode) :
    DomNode :=
  .element tag ea.className ea.props ea.attrs ea.listeners children

/-- defaultOptions models the default parameter options = {} of elem: an
undefined argument is replaced by the empty object. -/
def defaultOptions : JSArg → JSArg
  | .undef => .obj []
  | o => o

/-- elemCore is the body of elem after the tagName check and the
positional-overload disambiguation: read the option entries (this can throw
for a null options value), apply them, then append the children unless the
children value is undefined or null, in which case nothing is appended. -/
def elemCore (hasProp : String → Bool) (t : String) (opts kids : JSArg) :
    Except JSError DomNode :=
  match jsObjectKeys opts with
  | .error e => .error e
  | .ok m =>
    match kids with
    | .undef => .ok (mkElement t (setAttributesAndEvents hasProp {} m) [])
    | .nullv => .ok (mkElement t (setAttributesAndEvents hasProp {} m) [])
    | c => (appendChildren [] c).map (mkElement t (setAttributesAndEvents hasProp {} m))

/-- elem models the elem entry point: reject a tagName that is not a string
or whose trim is empty; if the (defaulted) options argument is itself a
valid children value, treat it as the children and use an empty option map;
otherwise apply the options and then the children argument. -/
def elem (hasProp : String → Bool) (tagName options childrenArg : JSArg) :
    Except JSError DomNode :=
  match tagName with
  | .str t =>
    if jsTrim t = "" then .error .tagNameError
    else if isChildren (defaultOptions options) then
      elemCore hasProp t (JSArg.obj []) (defaultOptions options)
    else
      elemCore hasProp t (defaultOptions options) childrenArg
  | _ => .error .tagNameError

/-- tagNameRejected states the condition under which elem raises the
invalid tagName error: the argument is not a string at all, or it is a
string containing only whitespace (its trim is empty). -/
def tagNameRejected : JSArg → Prop
  | .str t => jsTrim t = ""
  | _ => True

/-- jsOrString models the JavaScript expression a || b for strings, where
only the empty string is falsy. -/
def jsOrString (a b : String) : String := if a = "" then b else a

/-- stripHash models window.location.hash.slice(1) || "/" in the render
closure: drop the leading hash delimiter and fall back to the root path
when nothing remains. -/
def stripHash (locationHash : String) : String :=
  jsOrString (locationHash.drop 1) "/"

/-- jsOrOption models routes[hash] || routes["*"] for a route table whose
values are route functions, which are always truthy: take the exact match
when the key is present, the wildcard entry otherwise. -/
def jsOrOption {α : Type} (a b : Option α) : Option α :=
  match a with
  | some x => some x
  | none => b

/-- renderRoute models the render closure of hashRouter. A route function
is modelled by the node it returns. The container content is replaced
wholesale: the previous content (the container argument) is discarded by
innerHTML assignment and the node produced by the selected route becomes
the only child. When no exact route and no wildcard route exist the call
of the undefined component reproduces a TypeError. -/
def renderRoute (routes : List (String × DomNode)) (locationHash : String)
    (_container : List DomNode) : Except JSError (List DomNode) :=
  match jsOrOption (jsLookup routes (stripHash locationHash))
      (jsLookup routes "*") with
  | some node => .ok [node]
  | none => .error .typeError

/- Helper lemmas. -/

theorem jsLookup_assocSet_self {α : Type} (l : List (String × α)) (key : String)
    (v : α) : jsLookup (assocSet l key v) key = some v := by
  induction l with
  | nil => simp [assocSet, jsLookup]
  | cons hd tl ih =>
    obtain ⟨k, w⟩ := hd
    by_cases h : k = key
    · simp [assocSet, jsLookup, h]
    · simp [assocSet, jsLookup, h, ih]

theorem jsLookup_cons_self {α : Type} (k : String) (w : α)
    (tl : List (String × α)) : jsLookup ((k, w) :: tl) k = some w := by
  simp [jsLookup]

theorem jsLookup_cons_ne {α : Type} (k key : String) (w : α)
    (tl : List (String × α)) (h : k ≠ key) :
    jsLookup ((k, w) :: tl) key = jsLookup tl key := by
  simp [jsLookup, h]

theorem jsLookup_mem_of_nodup {α : Type} (l : List (String × α)) (key : String)
    (v : α) (hnd : (l.map Prod.fst).Nodup) :
    jsLookup l key = some v ↔ (key, v) ∈ l := by
  induction l with
  | nil => simp [jsLookup]
  | cons hd tl ih =>
    obtain ⟨k, w⟩ := hd
    simp only [List.map_cons, List.nodup_cons] at hnd
    by_cases h : k = key
    · subst h
      rw [jsLookup_cons_self]
      simp only [Option.some.injEq, List.mem_cons, Prod.mk.injEq, true_and]
      constructor
      · rintro rfl
        exact Or.inl rfl
      · rintro (rfl | hm)
        · rfl
        · exact absurd (List.mem_map_of_mem Prod.fst hm) hnd.1
    · rw [jsLookup_cons_ne k key w tl h, ih hnd.2]
      simp only [List.mem_cons, Prod.mk.injEq]
      constructor
      · exact Or.inr
      · rintro (⟨rfl, rfl⟩ | hm)
        · exact absurd rfl h
        · exact hm

theorem mem_triggerCallbacks (callbacks : List (String × List Nat))
    (key : String) (value : JSValue) (cb : Nat) (v : JSValue) :
    (cb, v) ∈ triggerCallbacks callbacks key value ↔
      v = value ∧ ∃ cbs, jsLookup callbacks key = some cbs ∧ cb ∈ cbs := by
  unfold triggerCallbacks
  cases h : jsLookup callbacks key with
  | none => simp
  | some cbs =>
    simp only [List.mem_map, Prod.mk.injEq]
    constructor
    · rintro ⟨c, hc, rfl, rfl⟩
      exact ⟨rfl, cbs, rfl, hc⟩
    · rintro ⟨rfl, cbs2, hsome, hm⟩
      cases hsome
      exact ⟨cb, hm, rfl, rfl⟩

mutual
theorem appendChildren_eq_flatten (acc : List DomNode) (c : JSArg) :
    appendChildren acc c =
      match childrenFlatten c with
      | some ds => .ok (acc ++ ds)
      | none => .error .childrenError := by
  cases c with
  | arr xs => simpa [appendChildren, childrenFlatten] using
      appendChildrenList_eq_flatten acc xs
  | node d =>
    by_cases h : isHTMLElement d = true <;>
      simp [appendChildren, childrenFlatten, h]
  | str s => simp [appendChildren, childrenFlatten]
  | num n => simp [appendChildren, childrenFlatten]
  | obj m => simp [appendChildren, childrenFlatten]
  | nullv => simp [appendChildren, childrenFlatten]
  | undef => simp [appendChildren, childrenFlatten]
  | boolv b => simp [appendChildren, childrenFlatten]
  | func i => simp [appendChildren, childrenFlatten]

theorem appendChildrenList_eq_flatten (acc : List DomNode) (cs : List JSArg) :
    appendChildrenList acc cs =
      match childrenFlattenList cs with
      | some ds => .ok (acc ++ ds)
      | none => .error .childrenError := by
  cases cs with
  | nil => simp [appendChildrenList, childrenFlattenList]
  | cons c rest =>
    have hc := appendChildren_eq_flatten acc c
    cases hfc : childrenFlatten c with
    | none =>
      rw [hfc] at hc
      simp [appendChildrenList, childrenFlattenList, hfc, hc]
    | some ds =>
      rw [hfc] at hc
      have hr := appendChildrenList_eq_flatten (acc ++ ds) rest
      cases hfr : childrenFlattenList rest with
      | none =>
        rw [hfr] at hr
        simp [appendChildrenList, childrenFlattenList, hfc, hfr, hc, hr]
      | some es =>
        rw [hfr] at hr
        simp [appendChildrenList, childrenFlattenList, hfc, hfr, hc, hr]
end

theorem elemCore_obj_undef (hasProp : String → Bool) (t : String)
    (m : List (String × JSValue)) :
    elemCore hasProp t (.obj m) .undef =
      .ok (mkElement t (setAttributesAndEvents hasProp {} m) []) := rfl

theorem elemCore_obj_nullv (hasProp : String → Bool) (t : String)
    (m : List (String × JSValue)) :
    elemCore hasProp t (.obj m) .nullv =
      .ok (mkElement t (setAttributesAndEvents hasProp {} m) []) := rfl

theorem elemCore_obj_children (hasProp : String → Bool) (t : String)
    (m : List (String × JSValue)) (c : JSArg) (h1 : c ≠ .undef)
    (h2 : c ≠ .nullv) :
    elemCore hasProp t (.obj m) c =
      (appendChildren [] c).map
        (mkElement t (setAttributesAndEvents hasProp {} m)) := by
  cases c with
  | undef => exact absurd rfl h1
  | nullv => exact absurd rfl h2
  | str s => rfl
  | num n => rfl
  | node d => rfl
  | arr xs => rfl
  | obj mm => rfl
  | boolv b => rfl
  | func i => rfl

theorem appendChildren_map_ne_tagNameError (f : List DomNode → DomNode)
    (c : JSArg) : (appendChildren [] c).map f ≠ .error .tagNameError := by
  rw [appendChildren_eq_flatten]
  cases childrenFlatten c <;> simp [Except.map]

theorem elemCore_ne_tagNameError (hasProp : String → Bool) (t : String)
    (opts kids : JSArg) :
    elemCore hasProp t opts kids ≠ .error .tagNameError := by
  intro hcontra
  cases opts <;> cases kids <;>
    simp [elemCore, jsObjectKeys] at hcontra <;>
    exact appendChildren_map_ne_tagNameError _ _ hcontra

/- Claim theorems. -/

/-- C1: for every key and every supported value v (a string, a number, a
plain object with JSON-stable members, or null), stateManager.get applied
immediately after stateManager.set returns exactly v, hence a value
deep-equal to v and of the same primitive kind; in particular the number 5
and the string form of 5 remain distinguished after the round trip. -/
theorem set_get_roundtrip (st : Store) (key : String) (v : JSValue)
    (h : supportedValue v) :
    stateManager.get (stateManager.set st key v).1 key = v := by
  cases v with
  | vnull =>
    simp [stateManager.set, stateManager.setTry, serializeValue,
      stateManager.get, jsLookup_assocSet_self]
  | vstr s =>
    simp [stateManager.set, stateManager.setTry, serializeValue,
      stateManager.get, jsLookup_assocSet_self]
  | vnum n =>
    simp [stateManager.set, stateManager.setTry, serializeValue,
      stateManager.get, jsLookup_assocSet_self, jsToNumber]
  | vobj fs =>
    have h2 : jsonRoundFields fs = fs := h
    simp [stateManager.set, stateManager.setTry, serializeValue,
      stateManager.get, jsLookup_assocSet_self, h2]
  | vbool b => exact h.elim
  | vundef => exact h.elim
  | vfunc i => exact h.elim

/-- Witness for set_get_roundtrip: one concrete input of each supported
kind, including the number five and the string five, which stay distinct. -/
theorem set_get_roundtrip_witness :
    stateManager.get (stateManager.set ⟨[], []⟩ "k" (.vnum 5)).1 "k" = .vnum 5 ∧
    stateManager.get (stateManager.set ⟨[], []⟩ "k" (.vstr "5")).1 "k" = .vstr "5" ∧
    stateManager.get (stateManager.set ⟨[], []⟩ "k" .vnull).1 "k" = .vnull ∧
    stateManager.get (stateManager.set ⟨[], []⟩ "k"
        (.vobj [("a", .vstr "x"), ("b", .vnum 2)])).1 "k" =
      .vobj [("a", .vstr "x"), ("b", .vnum 2)] ∧
    JSValue.vnum 5 ≠ JSValue.vstr "5" :=
  ⟨set_get_roundtrip ⟨[], []⟩ "k" (.vnum 5) trivial,
   set_get_roundtrip ⟨[], []⟩ "k" (.vstr "5") trivial,
   set_get_roundtrip ⟨[], []⟩ "k" .vnull trivial,
   set_get_roundtrip ⟨[], []⟩ "k" (.vobj [("a", .vstr "x"), ("b", .vnum 2)]) rfl,
   by rintro ⟨⟩⟩

/-- C2: for every key and every value of unsupported kind (a boolean, a
function or undefined), the try block of stateManager.set throws the
unsupported type error, and set itself catches it: it returns normally,
leaves the whole store (and hence the stored value for the key) unchanged
and fires no callback. -/
theorem set_unsupported_noop (st : Store) (key : String) (v : JSValue)
    (h : unsupportedKind v = true) :
    stateManager.setTry st key v = .error .unsupportedType ∧
    stateManager.set st key v = (st, []) := by
  cases v with
  | vbool b => exact ⟨rfl, rfl⟩
  | vfunc i => exact ⟨rfl, rfl⟩
  | vundef => exact ⟨rfl, rfl⟩
  | vnull => simp [unsupportedKind] at h
  | vstr s => simp [unsupportedKind] at h
  | vnum n => simp [unsupportedKind] at h
  | vobj fs => simp [unsupportedKind] at h

/-- Witness for set_unsupported_noop: setting a function value over an
existing entry with a registered callback changes nothing and notifies
nobody. -/
theorem set_unsupported_noop_witness :
    stateManager.setTry
        ⟨[("k", .envelope "string" (.vstr "old"))], [("k", [1])]⟩ "k"
        (.vfunc 0) = .error .unsupportedType ∧
    stateManager.set
        ⟨[("k", .envelope "string" (.vstr "old"))], [("k", [1])]⟩ "k"
        (.vfunc 0) =
      (⟨[("k", .envelope "string" (.vstr "old"))], [("k", [1])]⟩, []) :=
  set_unsupported_noop
    ⟨[("k", .envelope "string" (.vstr "old"))], [("k", [1])]⟩ "k" (.vfunc 0) rfl

/-- C3: the render procedure takes the hash fragment with the leading hash
delimiter stripped (an empty fragment becomes the root path), selects the
exact route when its key exists and otherwise the wildcard route, and
replaces the container content (whatever it was) with exactly the node
returned by the selected route function. -/
theorem renderRoute_selection (routes : List (String × DomNode))
    (locationHash : String) (container : List DomNode) :
    stripHash "" = "/" ∧
    (∀ s : String, s ≠ "" → stripHash ("#" ++ s) = s) ∧
    (∀ n, jsLookup routes (stripHash locationHash) = some n →
      renderRoute routes locationHash container = .ok [n]) ∧
    (jsLookup routes (stripHash locationHash) = none →
      ∀ n, jsLookup routes "*" = some n →
        renderRoute routes locationHash container = .ok [n]) := by
  refine ⟨rfl, ?_, ?_, ?_⟩
  · intro s hs
    have hd : ("#" ++ s).drop 1 = s := by
      apply String.ext
      simp
    simp [stripHash, jsOrString, hd, hs]
  · intro n hn
    simp [renderRoute, jsOrOption, hn]
  · intro hnone n hn
    simp [renderRoute, jsOrOption, hnone, hn]

/-- Witness for renderRoute_selection: with routes for the root and the
wildcard, an empty hash renders the root route and an unknown hash renders
the wildcard route, replacing the old container content. -/
theorem renderRoute_selection_witness :
    renderRoute [("/", .text "home"), ("*", .text "404")] "" [.text "old"] =
      .ok [.text "home"] ∧
    renderRoute [("/", .text "home"), ("*", .text "404")] "#/missing"
      [.text "old"] = .ok [.text "404"] :=
  ⟨(renderRoute_selection [("/", .text "home"), ("*", .text "404")] ""
      [.text "old"]).2.2.1 (.text "home") rfl,
   (renderRoute_selection [("/", .text "home"), ("*", .text "404")]
      "#/missing" [.text "old"]).2.2.2 rfl (.text "404") rfl⟩

/-- C10: the render procedure is total exactly under the wildcard (or
exact-match) precondition: when neither the current path nor the wildcard
is present in the table, the lookup yields no function and invoking the
missing component throws; when the wildcard is present, render always
succeeds. -/
theorem renderRoute_missing (routes : List (String × DomNode))
    (locationHash : String) (container : List DomNode) :
    (jsLookup routes (stripHash locationHash) = none →
      jsLookup routes "*" = none →
      renderRoute routes locationHash container = .error .typeError) ∧
    (∀ n, jsLookup routes "*" = some n →
      ∃ out, renderRoute routes locationHash container = .ok out) := by
  constructor
  · intro h1 h2
    simp [renderRoute, jsOrOption, h1, h2]
  · intro n hn
    cases h : jsLookup routes (stripHash locationHash) with
    | some m => exact ⟨[m], by simp [renderRoute, jsOrOption, h]⟩
    | none => exact ⟨[n], by simp [renderRoute, jsOrOption, h, hn]⟩

/-- Witness for renderRoute_missing: a table without a wildcard fails on an
unknown path; adding the wildcard makes the same path render. -/
theorem renderRoute_missing_witness :
    renderRoute [("/a", .text "A")] "#/b" [] = .error .typeError ∧
    ∃ out, renderRoute [("/a", .text "A"), ("*", .text "W")] "#/b" [] =
      .ok out :=
  ⟨(renderRoute_missing [("/a", .text "A")] "#/b" []).1 rfl rfl,
   (renderRoute_missing [("/a", .text "A"), ("*", .text "W")] "#/b" []).2
     (.text "W") rfl⟩

/-- C4: each option entry is applied by exactly this precedence, tested in
this order: a function value under an on-prefixed key becomes a listener
for the rest of the key lower-cased; otherwise the class key sets the class
attribute (string-coerced); otherwise a key existing as a property on the
node is assigned directly; otherwise the key becomes a generic
string-coerced attribute. Each equation also records that all other parts
of the element state are untouched, and the last conjunct states that the
option map is processed entry by entry in insertion order. -/
theorem applyOption_precedence (hasProp : String → Bool) (el : ElementAttrs)
    (key : String) (value : JSValue) :
    ((value.isFunction && jsStartsWith key "on") = true →
      applyOption hasProp el key value =
        { el with listeners :=
            el.listeners ++ [(jsToLower (key.drop 2), value.funcId)] }) ∧
    ((value.isFunction && jsStartsWith key "on") = false → key = "class" →
      applyOption hasProp el key value =
        { el with className := jsString value }) ∧
    ((value.isFunction && jsStartsWith key "on") = false → key ≠ "class" →
      hasProp key = true →
      applyOption hasProp el key value =
        { el with props := assocSet el.props key value }) ∧
    ((value.isFunction && jsStartsWith key "on") = false → key ≠ "class" →
      hasProp key = false →
      applyOption hasProp el key value =
        { el with attrs := assocSet el.attrs key (jsString value) }) ∧
    (∀ rest, setAttributesAndEvents hasProp el ((key, value) :: rest) =
      setAttributesAndEvents hasProp (applyOption hasProp el key value) rest) := by
  refine ⟨?_, ?_, ?_, ?_, fun rest => rfl⟩
  · intro h1
    simp [applyOption, h1]
  · intro h1 h2
    subst h2
    have hcl : jsStartsWith "class" "on" = false := rfl
    simp [applyOption, hcl]
  · intro h1 h2 h3
    simp [applyOption, h1, h2, h3]
  · intro h1 h2 h3
    simp [applyOption, h1, h2, h3]

/-- Witness for applyOption_precedence: one concrete entry per branch; the
first shows an on-prefixed function key becomes a click listener even when
the key also exists as a node property, exhibiting the precedence. -/
theorem applyOption_precedence_witness :
    applyOption (fun _ => true) {} "onClick" (.vfunc 7) =
      { listeners := [("click", 7)] } ∧
    applyOption (fun _ => true) {} "class" (.vstr "a") =
      { className := "a" } ∧
    applyOption (fun k => k == "id") {} "id" (.vstr "x") =
      { props := [("id", .vstr "x")] } ∧
    applyOption (fun _ => false) {} "data" (.vstr "y") =
      { attrs := [("data", "y")] } :=
  ⟨(applyOption_precedence (fun _ => true) {} "onClick" (.vfunc 7)).1 rfl,
   (applyOption_precedence (fun _ => true) {} "class" (.vstr "a")).2.1
     rfl rfl,
   (applyOption_precedence (fun k => k == "id") {} "id" (.vstr "x")).2.2.1
     rfl (by decide) rfl,
   (applyOption_precedence (fun _ => false) {} "data" (.vstr "y")).2.2.2.1
     rfl (by decide) rfl⟩

/-- C5: children application refines the specification-side depth-first
flattening childrenFlatten: starting from any accumulated child list,
appendChildren appends exactly the nodes childrenFlatten describes, in
order (arrays flattened depth-first, element nodes as-is, strings and
numbers as text nodes of their string form), and raises the invalid
children error exactly on the values childrenFlatten rejects. -/
theorem appendChildren_matches_flatten (acc : List DomNode) (c : JSArg) :
    appendChildren acc c =
      match childrenFlatten c with
      | some ds => .ok (acc ++ ds)
      | none => .error .childrenError :=
  appendChildren_eq_flatten acc c

/-- C6: when the second positional argument of elem is itself a valid
children value, it is treated as the children and the attribute map is
taken to be empty: the call is equivalent to passing an empty option map
with that children value (any third argument is discarded), and on success
the resulting node carries no class, no properties, no attributes and no
listeners, and exactly the children described by the value. -/
theorem elem_positional_children (hasProp : String → Bool) (t : String)
    (x third : JSArg) (ht : jsTrim t ≠ "") (hx : isChildren x = true) :
    elem hasProp (.str t) x third = elem hasProp (.str t) (.obj []) x ∧
    ∀ kids, appendChildren [] x = .ok kids →
      elem hasProp (.str t) x third = .ok (.element t "" [] [] [] kids) := by
  have hdef : defaultOptions x = x := by
    cases x with
    | undef => simp [isChildren] at hx
    | str s => rfl
    | num n => rfl
    | node d => rfl
    | arr xs => rfl
    | obj m => rfl
    | nullv => rfl
    | boolv b => rfl
    | func i => rfl
  have key1 : elem hasProp (.str t) x third = elemCore hasProp t (.obj []) x := by
    simp [elem, ht, hdef, hx]
  have key2 : elem hasProp (.str t) (.obj []) x =
      elemCore hasProp t (.obj []) x := by
    simp [elem, ht, defaultOptions, isChildren]
  refine ⟨key1.trans key2.symm, fun kids hk => ?_⟩
  rw [key1]
  have hnu : x ≠ .undef := by
    rintro rfl
    simp [isChildren] at hx
  have hnn : x ≠ .nullv := by
    rintro rfl
    simp [isChildren] at hx
  rw [elemCore_obj_children hasProp t [] x hnu hnn, hk]
  rfl

/-- Witness for elem_positional_children: a plain string as the second
argument becomes the single text child of an element with no attributes. -/
theorem elem_positional_children_witness :
    elem (fun _ => false) (.str "div") (.str "hi") .undef =
      .ok (.element "div" "" [] [] [] [.text "hi"]) :=
  (elem_positional_children (fun _ => false) "div" (.str "hi") .undef
    (by decide) rfl).2 [.text "hi"] rfl

/-- C9: at the top level of an elem call a null or undefined children
argument is accepted and appends nothing (the call succeeds and the node
has no children from it), whereas the same value inside an array of
children raises the invalid children error during the recursive
traversal. -/
theorem elem_null_children_toplevel_vs_nested (hasProp : String → Bool)
    (t : String) (m : List (String × JSValue)) (c : JSArg)
    (ht : jsTrim t ≠ "") (hc : c = .nullv ∨ c = .undef) :
    (∃ ea : ElementAttrs, elem hasProp (.str t) (.obj m) c =
      .ok (DomNode.element t ea.className ea.props ea.attrs ea.listeners [])) ∧
    elem hasProp (.str t) (.obj m) (.arr [c]) = .error .childrenError := by
  have helim : ∀ kids, elem hasProp (.str t) (.obj m) kids =
      elemCore hasProp t (.obj m) kids := by
    intro kids
    simp [elem, ht, defaultOptions, isChildren]
  constructor
  · refine ⟨setAttributesAndEvents hasProp {} m, ?_⟩
    rcases hc with rfl | rfl
    · rw [helim]
      rfl
    · rw [helim]
      rfl
  · rw [helim]
    rcases hc with rfl | rfl
    · rfl
    · rfl

/-- Witness for elem_null_children_toplevel_vs_nested at a concrete tag and
option map, for the null children value. -/
theorem elem_null_children_toplevel_vs_nested_witness :
    (∃ ea : ElementAttrs, elem (fun _ => false) (.str "div") (.obj []) .nullv =
      .ok (DomNode.element "div" ea.className ea.props ea.attrs ea.listeners
        [])) ∧
    elem (fun _ => false) (.str "div") (.obj []) (.arr [.nullv]) =
      .error .childrenError :=
  elem_null_children_toplevel_vs_nested (fun _ => false) "div" [] .nullv
    (by decide) (Or.inl rfl)

/-- C7 counterexample: the one-space tagName is a non-empty string, yet
elem raises the invalid tagName error, because the source rejects every
tagName whose trim is empty, not only the empty string. -/
theorem elem_nonempty_tag_counterexample :
    (" " : String).length ≠ 0 ∧
    elem (fun _ => false) (.str " ") (.obj []) .undef =
      .error .tagNameError :=
  ⟨by decide, rfl⟩

/-- C7 amended: elem raises the invalid tagName error if and only if the
tagName argument is not a string or is a string whose trim is empty
(whitespace-only, which includes the empty string); for every string with
a non-whitespace character the construction proceeds past this check and
never produces this error. -/
theorem elem_tagNameError_iff (hasProp : String → Bool)
    (tagName options childrenArg : JSArg) :
    elem hasProp tagName options childrenArg = .error .tagNameError ↔
      tagNameRejected tagName := by
  cases tagName with
  | str t =>
    simp only [tagNameRejected]
    by_cases h : jsTrim t = ""
    · simp [elem, h]
    · constructor
      · intro hcontra
        exfalso
        simp only [elem, if_neg h] at hcontra
        split at hcontra
        · exact elemCore_ne_tagNameError hasProp t (JSArg.obj [])
            (defaultOptions options) hcontra
        · exact elemCore_ne_tagNameError hasProp t (defaultOptions options)
            childrenArg hcontra
      · intro hh
        exact absurd hh h
  | num n => simp [elem, tagNameRejected]
  | node d => simp [elem, tagNameRejected]
  | arr xs => simp [elem, tagNameRejected]
  | obj m => simp [elem, tagNameRejected]
  | nullv => simp [elem, tagNameRejected]
  | undef => simp [elem, tagNameRejected]
  | boolv b => simp [elem, tagNameRejected]
  | func i => simp [elem, tagNameRejected]

/-- C8: clear empties the whole backend while leaving the callback
registry in place, and the fired notifications are exactly the registered
callbacks, each invoked once with null: a callback appears in the
notification list exactly when it is registered for some key, and a key
with no registered callbacks (absent from the registry) is still removed
from the backend yet produces no notification. -/
theorem clear_notifies_registered (st : Store)
    (hnd : (st.callbacks.map Prod.fst).Nodup) :
    (stateManager.clear st).1.storage = [] ∧
    (stateManager.clear st).1.callbacks = st.callbacks ∧
    ∀ cb v, ((cb, v) ∈ (stateManager.clear st).2 ↔
      (v = .vnull ∧ ∃ k cbs, (k, cbs) ∈ st.callbacks ∧ cb ∈ cbs)) := by
  refine ⟨rfl, rfl, fun cb v => ?_⟩
  simp only [stateManager.clear, List.mem_flatten, List.mem_map]
  constructor
  · rintro ⟨l, ⟨k, hk, rfl⟩, hmem⟩
    rw [mem_triggerCallbacks] at hmem
    obtain ⟨rfl, cbs, hsome, hcb⟩ := hmem
    exact ⟨rfl, k, cbs, (jsLookup_mem_of_nodup st.callbacks k cbs hnd).1 hsome,
      hcb⟩
  · rintro ⟨rfl, k, cbs, hk, hcb⟩
    refine ⟨triggerCallbacks st.callbacks k .vnull, ⟨k, ?_, rfl⟩, ?_⟩
    · exact ⟨(k, cbs), hk, rfl⟩
    · rw [mem_triggerCallbacks]
      exact ⟨rfl, cbs, (jsLookup_mem_of_nodup st.callbacks k cbs hnd).2 hk,
        hcb⟩

/-- Witness for clear_notifies_registered: a store with entries under two
keys but callbacks registered only under the first; both entries are
cleared and only the registered callbacks are notified. -/
theorem clear_notifies_registered_witness :
    (stateManager.clear
      ⟨[("a", .nullLit), ("b", .nullLit)], [("a", [1, 2])]⟩).1.storage = [] ∧
    ((1, JSValue.vnull) ∈
      (stateManager.clear
        ⟨[("a", .nullLit), ("b", .nullLit)], [("a", [1, 2])]⟩).2 ↔
      (JSValue.vnull = .vnull ∧ ∃ k cbs,
        (k, cbs) ∈ [("a", [1, 2])] ∧ 1 ∈ cbs)) :=
  ⟨(clear_notifies_registered
      ⟨[("a", .nullLit), ("b", .nullLit)], [("a", [1, 2])]⟩ (by simp)).1,
   (clear_notifies_registered
      ⟨[("a", .nullLit), ("b", .nullLit)], [("a", [1, 2])]⟩ (by simp)).2.2
     1 .vnull⟩
